import Mathlib

set_option maxHeartbeats 1000000

/-!
Shallow embedding of the AI-agent immune-system orchestrator
(src/orchestrator.py and src/immune_system/agents.py).

The orchestrator consumes several single-purpose collaborator services
(quarantine controller, outcome memory, remediation engine, sentinel,
diagnostician, telemetry store) whose Python sources are not part of the
repository snapshot under src/; those are modelled from the spec's collaborator
contracts (spec.md section 6) and marked `Modelled from the spec` below.

Machine details that no claim depends on (real wall-clock time, Python float
representation of severities, the simulated telemetry numbers inside
BaseAgent.execute) are abstracted: timestamps are supplied as natural-number
parameters, severities are rationals.
-/

/-- Agent status (src/immune_system/agents.py, class AgentStatus). -/
inductive AgentStatus where
  | healthy
  | infected
  | quarantined
  deriving DecidableEq

/-- The fields of BaseAgent (src/immune_system/agents.py) the orchestrator reads
or mutates.  The simulated-telemetry fields (base_latency_ms, execution_count,
state, ...) are only used inside BaseAgent.execute, which no claim touches, and
are elided. -/
structure Agent where
  infected : Bool
  infection_type : Option String
  status : AgentStatus
  deriving DecidableEq

/-- BaseAgent.quarantine (agents.py lines 144-146). -/
def Agent.quarantine (a : Agent) : Agent :=
  { a with status := AgentStatus.quarantined }

/-- BaseAgent.release (agents.py lines 148-150): status becomes HEALTHY if not
infected else INFECTED. -/
def Agent.release (a : Agent) : Agent :=
  { a with status := if a.infected then AgentStatus.infected else AgentStatus.healthy }

/-- BaseAgent.cure (agents.py lines 138-142). -/
def Agent.cure (_a : Agent) : Agent :=
  { infected := false, infection_type := none, status := AgentStatus.healthy }

/-- BaseAgent.infect (agents.py lines 132-136). -/
def Agent.infect (a : Agent) (t : String) : Agent :=
  { a with infected := true, infection_type := some t, status := AgentStatus.infected }

/-- InfectionReport (produced by the Sentinel collaborator, detection.py):
agent id severity in [0,10] and a set of anomaly kinds; the severity is modelled
as a rational. -/
structure InfectionReport where
  severity : ℚ
  anomalies : List String
  deriving DecidableEq

/-- Diagnosis (produced by the Diagnostician collaborator, diagnosis.py):
fault category, confidence, free-text reasoning. -/
structure Diagnosis where
  diagnosis_type : String
  confidence : ℚ
  reasoning : String
  deriving DecidableEq

/-- A pending-approval or rejected-approval entry (orchestrator.py lines 166-170
and 218-222): the stored infection, diagnosis and requested_at / rejected_at
timestamp. -/
structure ApprovalEntry where
  infection : InfectionReport
  diagnosis : Diagnosis
  at_time : Nat
  deriving DecidableEq

/-- One entry of the healing-action log (orchestrator.py _log_action, line 80):
a type tag, the agent id, a timestamp and the kwargs that the various call
sites pass (severity, diagnosis_type, action, success, trigger). -/
structure LogEntry where
  type : String
  agent_id : String
  timestamp : Nat
  severity : Option ℚ := none
  diagnosis_type : Option String := none
  action : Option String := none
  success : Option Bool := none
  trigger : Option String := none
  deriving DecidableEq

/-- SEVERITY_REQUIRING_APPROVAL (orchestrator.py line 29). -/
def SEVERITY_REQUIRING_APPROVAL : ℚ := 7

/-- ImmuneSystemOrchestrator._action_log_max (orchestrator.py line 75). -/
def action_log_max : Nat := 80

/-- ImmuneSystemOrchestrator._log_action (orchestrator.py lines 78-84): append
the entry, then if the log exceeds the cap keep only the newest
action_log_max entries. -/
def log_action (log : List LogEntry) (e : LogEntry) : List LogEntry :=
  let l := log ++ [e]
  if action_log_max < l.length then l.drop (l.length - action_log_max) else l

/-- ImmuneSystemOrchestrator.get_healing_actions (orchestrator.py lines 86-89):
a copy of the newest 50 entries of the action log. -/
def get_healing_actions (log : List LogEntry) : List LogEntry :=
  log.drop (log.length - 50)

/-- The newest `k` elements of a list (Python slice l[-k:]). -/
def lastN {α : Type} (k : Nat) (l : List α) : List α :=
  l.drop (l.length - k)

lemma lastN_of_le {α : Type} {k : Nat} {l : List α} (h : l.length ≤ k) :
    lastN k l = l := by
  unfold lastN
  rw [Nat.sub_eq_zero_of_le h, List.drop_zero]

lemma length_lastN {α : Type} (k : Nat) (l : List α) :
    (lastN k l).length = min l.length k := by
  unfold lastN
  rw [List.length_drop]
  omega

lemma drop_append_add {α : Type} (l m : List α) (j : Nat) :
    (l ++ m).drop (l.length + j) = m.drop j := by
  induction l with
  | nil => simp
  | cons x xs ih => simp [Nat.succ_add, ih]

lemma lastN_append_of_le {α : Type} {k : Nat} (l m : List α) (h : k ≤ m.length) :
    lastN k (l ++ m) = lastN k m := by
  unfold lastN
  have harith : (l ++ m).length - k = l.length + (m.length - k) := by
    rw [List.length_append]; omega
  rw [harith, drop_append_add]

lemma lastN_lastN_append {α : Type} (k : Nat) (l m : List α) :
    lastN k (lastN k l ++ m) = lastN k (l ++ m) := by
  rcases Nat.le_total l.length k with h | h
  · rw [lastN_of_le h]
  · have hlen : (lastN k l).length = k := by rw [length_lastN]; omega
    have hdecomp : l = l.take (l.length - k) ++ lastN k l := by
      unfold lastN; rw [List.take_append_drop]
    have hstep : lastN k (List.take (l.length - k) l ++ (lastN k l ++ m))
        = lastN k (lastN k l ++ m) :=
      lastN_append_of_le _ _ (by rw [List.length_append, hlen]; omega)
    conv_rhs => rw [hdecomp, List.append_assoc]
    rw [hstep]

lemma log_action_eq_lastN (log : List LogEntry) (e : LogEntry) :
    log_action log e = lastN action_log_max (log ++ [e]) := by
  unfold log_action lastN
  dsimp only
  split
  · rfl
  · rename_i h
    rw [Nat.sub_eq_zero_of_le (by omega), List.drop_zero]

lemma foldl_log_action (entries : List LogEntry) :
    ∀ log : List LogEntry, log.length ≤ action_log_max →
      entries.foldl log_action log = lastN action_log_max (log ++ entries) := by
  induction entries with
  | nil =>
      intro log hlog
      simp only [List.foldl_nil, List.append_nil]
      rw [lastN_of_le hlog]
  | cons e es ih =>
      intro log hlog
      rw [List.foldl_cons, log_action_eq_lastN, ih _ ?_, lastN_lastN_append]
      · simp
      · rw [length_lastN]; omega

/-- C8: after any sequence of _log_action appends starting from an empty log,
the action log holds exactly min(number of appends, 80) entries, namely the
most recently appended ones in insertion order (the newest-80 suffix of the
append sequence); older entries are dropped. -/
theorem C8_log_bounded (entries : List LogEntry) :
    entries.foldl log_action [] = entries.drop (entries.length - action_log_max) ∧
    (entries.foldl log_action []).length = min entries.length action_log_max := by
  have h := foldl_log_action entries [] (by simp [action_log_max])
  simp only [List.nil_append] at h
  refine ⟨h, ?_⟩
  rw [h]
  exact length_lastN action_log_max entries

/-- C10: get_healing_actions returns the newest min(len, 50) entries of the
action log as a suffix (so in insertion order), and 50 is strictly below the
internal retention cap of 80; being a pure function of the log, it does not
modify it. -/
theorem C10_recent_actions_view (log : List LogEntry) :
    get_healing_actions log = lastN 50 log ∧
    (get_healing_actions log).length = min log.length 50 ∧
    log.take (log.length - 50) ++ get_healing_actions log = log ∧
    50 < action_log_max := by
  refine ⟨rfl, length_lastN 50 log, ?_, by decide⟩
  exact List.take_append_drop _ log

/-- One record of the Outcome Memory collaborator (ImmuneMemory.record_healing
call site, orchestrator.py lines 331-336): agent id, fault category, the
healing action that was applied, and whether validation passed. -/
structure MemRecord where
  agent_id : String
  diagnosis_type : String
  healing_action : String
  success : Bool
  deriving DecidableEq

/-- Modelled from the spec: Outcome Memory `failedActions(id, category) → set`
(spec section 6) — the actions recorded as failures for this (agent id, fault
category) pair.  The repository's memory.py is not part of the source
snapshot under src/. -/
def get_failed_actions (memory : List MemRecord) (agent_id diagnosis_type : String) :
    List String :=
  (memory.filter (fun r =>
    r.agent_id == agent_id && r.diagnosis_type == diagnosis_type && !r.success)).map
    MemRecord.healing_action

/-- Modelled from the spec: Outcome Memory `record(id, category, action,
success)` — an append-only learning store (spec section 6); memory.py is not
part of the source snapshot. -/
def record_healing (memory : List MemRecord) (r : MemRecord) : List MemRecord :=
  memory ++ [r]

/-- Modelled from the spec: Remediation Engine `nextAction(faultCategory,
failedSet) → action | none` — "Select the first policy action not in the
known-failed set" (spec section 4.4 step 4, section 6); the repository's
healing.py is not part of the source snapshot. -/
def get_next_action (policy : List String) (failed : List String) : Option String :=
  policy.find? (fun a => decide (a ∉ failed))

lemma get_failed_actions_record_fail (memory : List MemRecord) (id dt a : String) :
    get_failed_actions (record_healing memory ⟨id, dt, a, false⟩) id dt
      = get_failed_actions memory id dt ++ [a] := by
  simp [get_failed_actions, record_healing, List.filter_append]

lemma length_filter_le_of_imp {α : Type} (l : List α) (p q : α → Bool)
    (himp : ∀ x, q x = true → p x = true) :
    (l.filter q).length ≤ (l.filter p).length := by
  induction l with
  | nil => simp
  | cons x xs ih =>
      by_cases hq : q x = true
      · rw [List.filter_cons_of_pos hq, List.filter_cons_of_pos (himp x hq)]
        simpa using ih
      · rw [List.filter_cons_of_neg (by simpa using hq)]
        by_cases hp : p x = true
        · rw [List.filter_cons_of_pos hp]
          exact Nat.le_succ_of_le ih
        · rw [List.filter_cons_of_neg (by simpa using hp)]
          exact ih

lemma length_filter_lt_of_imp {α : Type} (l : List α) (p q : α → Bool)
    (himp : ∀ x, q x = true → p x = true) (a : α) (ha : a ∈ l)
    (hpa : p a = true) (hqa : q a = false) :
    (l.filter q).length < (l.filter p).length := by
  induction l with
  | nil => cases ha
  | cons x xs ih =>
      rcases List.mem_cons.mp ha with rfl | hmem
      · rw [List.filter_cons_of_pos hpa, List.filter_cons_of_neg (by simp [hqa])]
        exact Nat.lt_succ_of_le (length_filter_le_of_imp xs p q himp)
      · by_cases hq : q x = true
        · rw [List.filter_cons_of_pos hq, List.filter_cons_of_pos (himp x hq)]
          simpa using ih hmem
        · rw [List.filter_cons_of_neg (by simpa using hq)]
          by_cases hp : p x = true
          · rw [List.filter_cons_of_pos hp]
            exact Nat.lt_succ_of_lt (ih hmem)
          · rw [List.filter_cons_of_neg (by simpa using hp)]
            exact ih hmem

/-- The action-log entry appended for one healing attempt
(orchestrator.py lines 337-343). -/
def healing_attempt_entry (agent_id diagnosis_type act : String) (success : Bool)
    (trigger : String) (t : Nat) : LogEntry :=
  { type := "healing_attempt", agent_id := agent_id, timestamp := t,
    diagnosis_type := some diagnosis_type, action := some act,
    success := some success, trigger := some trigger }

/-- The cumulative observable effects of one healing episode: the chain of
recursive heal_agent escalation steps for one agent and one infection, down to
the terminal state. -/
structure EpisodeOutcome where
  attempted : List String
  records : List MemRecord
  logged : List LogEntry
  errors : List String
  healed : Bool
  healed_delta : Nat
  failed_delta : Nat
  deriving DecidableEq

/-- The remediation-escalation recursion of ImmuneSystemOrchestrator.heal_agent
(orchestrator.py lines 286-359), for a fixed agent, fault category (the
diagnosis is recomputed each step from the same frozen infection and baseline,
hence constant over the episode) and remediation policy.  `applyOk` gives the
validation result of Healer.apply_healing for each action (a collaborator;
"apply never throws", spec section 6).  Each step selects the first policy
action outside the known-failed set; on no remaining action it records the
exhaustion error and stops (lines 320-324); on failure it records the failed
attempt in outcome memory and the action log, counts it, and recurses
(lines 350-357); on success it records and stops (lines 345-349). -/
def heal_agent_episode (policy : List String) (applyOk : String → Bool)
    (agent_id diagnosis_type trigger : String) (t : Nat)
    (memory : List MemRecord) : EpisodeOutcome :=
  match hfind : get_next_action policy (get_failed_actions memory agent_id diagnosis_type) with
  | none =>
      { attempted := [], records := [], logged := [],
        errors := ["All healing actions exhausted for " ++ agent_id],
        healed := false, healed_delta := 0, failed_delta := 0 }
  | some a =>
      if applyOk a then
        { attempted := [a],
          records := [⟨agent_id, diagnosis_type, a, true⟩],
          logged := [healing_attempt_entry agent_id diagnosis_type a true trigger t],
          errors := [], healed := true, healed_delta := 1, failed_delta := 0 }
      else
        let rest := heal_agent_episode policy applyOk agent_id diagnosis_type trigger t
          (record_healing memory ⟨agent_id, diagnosis_type, a, false⟩)
        { attempted := a :: rest.attempted,
          records := ⟨agent_id, diagnosis_type, a, false⟩ :: rest.records,
          logged := healing_attempt_entry agent_id diagnosis_type a false trigger t :: rest.logged,
          errors := rest.errors, healed := rest.healed,
          healed_delta := rest.healed_delta, failed_delta := rest.failed_delta + 1 }
termination_by
  (policy.filter (fun a =>
    decide (a ∉ get_failed_actions memory agent_id diagnosis_type))).length
decreasing_by
  unfold get_next_action at hfind
  rw [get_failed_actions_record_fail]
  refine length_filter_lt_of_imp policy _ _ ?_ a (List.mem_of_find?_eq_some hfind) ?_ ?_
  · intro x hx
    simp only [decide_eq_true_eq, List.mem_append, List.mem_singleton] at hx ⊢
    intro hmem
    exact hx (Or.inl hmem)
  · simpa using List.find?_some hfind
  · simp

lemma heal_agent_episode_exhausted (policy : List String) (applyOk : String → Bool)
    (id dt tr : String) (t : Nat) (memory : List MemRecord)
    (hex : get_next_action policy (get_failed_actions memory id dt) = none) :
    heal_agent_episode policy applyOk id dt tr t memory =
      { attempted := [], records := [], logged := [],
        errors := ["All healing actions exhausted for " ++ id],
        healed := false, healed_delta := 0, failed_delta := 0 } := by
  rw [heal_agent_episode.eq_def]
  split
  · rfl
  · rename_i a ha
    rw [hex] at ha
    cases ha

lemma filter_cons_of_find?_not_mem (policy F : List String) (a : String)
    (hnd : policy.Nodup)
    (hf : policy.find? (fun x => decide (x ∉ F)) = some a) :
    policy.filter (fun x => decide (x ∉ F))
      = a :: policy.filter (fun x => decide (x ∉ F ++ [a])) := by
  induction policy with
  | nil => cases hf
  | cons x xs ih =>
      by_cases hx : x ∉ F
      · rw [List.find?_cons_of_pos _ (by simpa using hx)] at hf
        have hax : x = a := by injection hf
        subst hax
        rw [List.filter_cons_of_pos (by simpa using hx),
            List.filter_cons_of_neg (by simp)]
        congr 1
        apply List.filter_congr
        intro y hy
        have hyx : y ≠ x := by
          intro h
          subst h
          exact (List.nodup_cons.mp hnd).1 hy
        simp only [decide_eq_decide, List.mem_append, List.mem_singleton]
        simp [hyx]
      · rw [List.find?_cons_of_neg _ (by simpa using hx)] at hf
        have hxF : x ∈ F := not_not.mp hx
        rw [List.filter_cons_of_neg (by simpa using hx),
            List.filter_cons_of_neg
              (by simp only [decide_eq_true_eq, not_not, List.mem_append]; exact Or.inl hxF)]
        exact ih (List.nodup_cons.mp hnd).2 hf

lemma heal_agent_episode_all_fail (policy : List String) (id dt tr : String) (t : Nat)
    (hnd : policy.Nodup) :
    ∀ n (memory : List MemRecord),
      (policy.filter (fun a => decide (a ∉ get_failed_actions memory id dt))).length = n →
      heal_agent_episode policy (fun _ => false) id dt tr t memory =
        { attempted := policy.filter (fun a => decide (a ∉ get_failed_actions memory id dt)),
          records := (policy.filter (fun a => decide (a ∉ get_failed_actions memory id dt))).map
            (fun a => ⟨id, dt, a, false⟩),
          logged := (policy.filter (fun a => decide (a ∉ get_failed_actions memory id dt))).map
            (fun a => healing_attempt_entry id dt a false tr t),
          errors := ["All healing actions exhausted for " ++ id],
          healed := false, healed_delta := 0,
          failed_delta :=
            (policy.filter (fun a => decide (a ∉ get_failed_actions memory id dt))).length } := by
  intro n
  induction n using Nat.strong_induction_on with
  | _ n IH =>
    intro memory hn
    rw [heal_agent_episode.eq_def]
    split
    · rename_i hfind
      unfold get_next_action at hfind
      have hfilter : policy.filter (fun a => decide (a ∉ get_failed_actions memory id dt)) = [] := by
        rw [List.filter_eq_nil_iff]
        intro a ha
        exact List.find?_eq_none.mp hfind a ha
      rw [hfilter]
      rfl
    · rename_i a hfind
      simp only [Bool.false_eq_true, if_false]
      have hfind' := hfind
      unfold get_next_action at hfind'
      have hdecr :
          (policy.filter (fun x => decide (x ∉ get_failed_actions
            (record_healing memory ⟨id, dt, a, false⟩) id dt))).length < n := by
        rw [get_failed_actions_record_fail, ← hn]
        refine length_filter_lt_of_imp policy _ _ ?_ a
          (List.mem_of_find?_eq_some hfind') ?_ ?_
        · intro x hx
          simp only [decide_eq_true_eq, List.mem_append, List.mem_singleton] at hx ⊢
          intro hmem
          exact hx (Or.inl hmem)
        · simpa using List.find?_some hfind'
        · simp
      have hrec := IH _ hdecr (record_healing memory ⟨id, dt, a, false⟩) rfl
      rw [hrec]
      have hcons : policy.filter (fun x => decide (x ∉ get_failed_actions memory id dt))
          = a :: policy.filter (fun x => decide (x ∉ get_failed_actions
              (record_healing memory ⟨id, dt, a, false⟩) id dt)) := by
        rw [get_failed_actions_record_fail]
        exact filter_cons_of_find?_not_mem policy _ a hnd hfind'
      rw [hcons]
      simp

/-- Net effect of a terminal healing episode on the agent object: on success the
applied remediation cures the agent (spec section 4.4 step 7, "mark it cured";
Healer.apply_healing is a collaborator modelled from the spec) and the
orchestrator releases it (orchestrator.py lines 345-349); on exhaustion the
orchestrator releases it uncured (lines 320-324). -/
def episode_agent_after (out : EpisodeOutcome) (ag : Agent) : Agent :=
  if out.healed then (Agent.cure ag).release else ag.release

/-- C4: for a remediation policy whose N actions are distinct, if every applied
remediation action fails, a single healing episode (with no prior failure
records for this agent and fault category) performs exactly N healing attempts,
one per distinct policy action in policy order with no action selected twice,
and then exhausts and releases the agent unhealed. -/
theorem C4_episode_tries_each_action_once (policy : List String)
    (id dt tr : String) (t : Nat) (hnd : policy.Nodup) :
    (heal_agent_episode policy (fun _ => false) id dt tr t []).attempted = policy ∧
    (heal_agent_episode policy (fun _ => false) id dt tr t []).attempted.length
      = policy.length ∧
    (heal_agent_episode policy (fun _ => false) id dt tr t []).attempted.Nodup ∧
    (heal_agent_episode policy (fun _ => false) id dt tr t []).healed = false ∧
    (heal_agent_episode policy (fun _ => false) id dt tr t []).errors
      = ["All healing actions exhausted for " ++ id] ∧
    (∀ ag : Agent, ag.infected = true →
      (episode_agent_after (heal_agent_episode policy (fun _ => false) id dt tr t []) ag).status
        = AgentStatus.infected) := by
  have hfilter : policy.filter (fun a => decide (a ∉ get_failed_actions [] id dt)) = policy := by
    simp [get_failed_actions]
  have h := heal_agent_episode_all_fail policy id dt tr t hnd _ [] rfl
  rw [hfilter] at h
  rw [h]
  refine ⟨rfl, rfl, hnd, rfl, rfl, ?_⟩
  intro ag hag
  simp [episode_agent_after, Agent.release, hag]

/-- C4 witness: a concrete two-action policy with all attempts failing yields
exactly those two attempts in order. -/
theorem C4_witness :
    (["restart_agent", "rollback_prompt"] : List String).Nodup ∧
    (heal_agent_episode ["restart_agent", "rollback_prompt"] (fun _ => false)
      "a1" "memory_corruption" "auto" 0 []).attempted
      = ["restart_agent", "rollback_prompt"] := by
  refine ⟨by decide, ?_⟩
  exact (C4_episode_tries_each_action_once ["restart_agent", "rollback_prompt"]
    "a1" "memory_corruption" "auto" 0 (by decide)).1

/-- C5: when heal_agent finds no policy action outside the known-failed set
(exhaustion, orchestrator.py lines 320-324), the episode logs the error-level
exhaustion event, releases the still-infected agent without curing it (its
status after release is INFECTED, agents.py line 150), records nothing further
for that step (no outcome-memory record, no action-log entry, no attempt), does
not count a success, and terminates without retrying; the episode is counted in
the failed-healing statistics through the per-attempt failure increments
(orchestrator.py line 352): whenever any untried action remained at episode
start and all applications fail, the failed-healing counter delta is at least
one. -/
theorem C5_exhaustion_releases_unhealed (policy : List String) (applyOk : String → Bool)
    (id dt tr : String) (t : Nat) (memory : List MemRecord)
    (hex : get_next_action policy (get_failed_actions memory id dt) = none) :
    (heal_agent_episode policy applyOk id dt tr t memory).errors
      = ["All healing actions exhausted for " ++ id] ∧
    (heal_agent_episode policy applyOk id dt tr t memory).records = [] ∧
    (heal_agent_episode policy applyOk id dt tr t memory).logged = [] ∧
    (heal_agent_episode policy applyOk id dt tr t memory).attempted = [] ∧
    (heal_agent_episode policy applyOk id dt tr t memory).healed = false ∧
    (heal_agent_episode policy applyOk id dt tr t memory).healed_delta = 0 ∧
    (∀ ag : Agent, ag.infected = true →
      (episode_agent_after (heal_agent_episode policy applyOk id dt tr t memory) ag).status
        = AgentStatus.infected) ∧
    (∀ memory' : List MemRecord,
      get_next_action policy (get_failed_actions memory' id dt) ≠ none →
      1 ≤ (heal_agent_episode policy (fun _ => false) id dt tr t memory').failed_delta) := by
  rw [heal_agent_episode_exhausted policy applyOk id dt tr t memory hex]
  refine ⟨rfl, rfl, rfl, rfl, rfl, rfl, ?_, ?_⟩
  · intro ag hag
    simp [episode_agent_after, Agent.release, hag]
  · intro memory' hne
    rw [heal_agent_episode.eq_def]
    split
    · rename_i hfind
      exact absurd hfind hne
    · rename_i a hfind
      simp

/-- C5 witness: with a one-action policy already recorded as failed for this
agent and fault category, the episode exhausts immediately with no attempt,
no record, no log entry, and an error event. -/
theorem C5_witness :
    get_next_action ["restart_agent"]
      (get_failed_actions [⟨"a1", "memory_corruption", "restart_agent", false⟩]
        "a1" "memory_corruption") = none ∧
    (heal_agent_episode ["restart_agent"] (fun _ => false) "a1" "memory_corruption"
      "auto" 0 [⟨"a1", "memory_corruption", "restart_agent", false⟩]).errors
      = ["All healing actions exhausted for " ++ "a1"] := by
  refine ⟨by decide, ?_⟩
  exact (C5_exhaustion_releases_unhealed ["restart_agent"] (fun _ => false)
    "a1" "memory_corruption" "auto" 0
    [⟨"a1", "memory_corruption", "restart_agent", false⟩] (by decide)).1

/-- A healing chain: one scheduled heal_agent task for one agent and one
infection.  `created` is the window between asyncio.create_task (orchestrator.py
line 178 and the approve / heal-now call sites) and the task body starting;
`running` is from the first statement of heal_agent (line 288, the
healing_in_progress.add) to the terminal state. -/
inductive ChainPhase where
  | created
  | running
  deriving DecidableEq

structure Chain where
  agent_id : String
  infection : InfectionReport
  trigger : String
  phase : ChainPhase
  deriving DecidableEq

/-- The shared mutable state of ImmuneSystemOrchestrator (orchestrator.py
lines 41-76) that the modelled claims concern: the quarantine set (the
QuarantineController collaborator, modelled from the spec as a membership set
with a monotonic counter, spec section 6), the pending / rejected approval
maps as insertion-ordered association lists (Python dicts), the
healing_in_progress set, the action log, the statistics counters, the outcome
memory, the set of scheduled or running heal_agent chains and the error-level
log. -/
structure OrchState where
  agents : String → Agent
  quarantineSet : String → Bool
  total_quarantines : Nat
  pending : List (String × ApprovalEntry)
  rejected : List (String × ApprovalEntry)
  healing_in_progress : String → Bool
  action_log : List LogEntry
  total_infections : Nat
  total_healed : Nat
  total_failed_healings : Nat
  memory : List MemRecord
  chains : List Chain
  error_log : List String

/-- Point update of a Boolean membership function. -/
def setFlag (f : String → Bool) (id : String) (b : Bool) : String → Bool :=
  fun x => if x = id then b else f x

/-- Point update of the agent map. -/
def updateAgentMap (f : String → Agent) (id : String) (g : Agent → Agent) :
    String → Agent :=
  fun x => if x = id then g (f x) else f x

/-- Keys of an association list, in insertion order. -/
def keys {α : Type} (l : List (String × α)) : List String :=
  l.map Prod.fst

/-- Dict lookup on an association list. -/
def lookupA {α : Type} (l : List (String × α)) (k : String) : Option α :=
  (l.find? (fun p => p.1 == k)).map Prod.snd

/-- Dict assignment d[k] = v: replace in place if the key exists, else append
(Python dicts preserve insertion order). -/
def assocSet {α : Type} (l : List (String × α)) (k : String) (v : α) :
    List (String × α) :=
  if (keys l).contains k then l.map (fun p => if p.1 == k then (k, v) else p)
  else l ++ [(k, v)]

/-- Dict pop d.pop(k, None): remove the key if present. -/
def assocErase {α : Type} (l : List (String × α)) (k : String) :
    List (String × α) :=
  l.filter (fun p => !(p.1 == k))

/-- Modelled from the spec: Quarantine Set `quarantine(id)` — "simple membership
set with a monotonic counter" (spec section 6); quarantine.py is not part of
the source snapshot under src/. -/
def quarantine_add (s : OrchState) (id : String) : OrchState :=
  { s with quarantineSet := setFlag s.quarantineSet id true,
           total_quarantines := s.total_quarantines + 1 }

/-- Display rounding of a severity to one decimal place (Python
round(severity, 1) at orchestrator.py line 171; Python rounds half to even,
which differs from this rounding only on exact half-tenths). -/
def round1 (q : ℚ) : ℚ := (round (q * 10) : ℤ) / 10

/-- The approval_requested action-log entry (orchestrator.py line 171). -/
def approval_requested_entry (id : String) (sev : ℚ) (t : Nat) : LogEntry :=
  { type := "approval_requested", agent_id := id, timestamp := t,
    severity := some (round1 sev) }

/-- An action-log entry carrying only a type tag and agent id
(user_approved / user_rejected / explicit_heal_requested call sites,
orchestrator.py lines 213, 216, 268). -/
def user_action_entry (ty id : String) (t : Nat) : LogEntry :=
  { type := ty, agent_id := id, timestamp := t }

/-- The body of ImmuneSystemOrchestrator.sentinel_loop for one agent
(orchestrator.py lines 125-178), which is a single synchronous (await-free)
block.  The telemetry, baseline and sentinel collaborators are represented by
oracle parameters: `has_baseline` (baseline_learner.has_baseline),
`has_recent` (a non-empty recent telemetry window) and the detection result
`det` (Sentinel.detect_infection, a pure function of its inputs, spec
section 6); `diagnose` stands for Diagnostician.diagnose against the agent's
frozen baseline.  On a positive detection the agent is skipped if it sits in
the rejected-approval map; otherwise the infection counter is incremented, the
agent is quarantined (both in the quarantine set and on the agent object), and
severity at or above SEVERITY_REQUIRING_APPROVAL diagnoses immediately and
files a pending approval plus an approval_requested log entry, while lower
severity schedules a heal_agent task (a chain in the created phase). -/
def sentinel_step (diagnose : String → InfectionReport → Diagnosis)
    (has_baseline has_recent : Bool) (det : Option InfectionReport)
    (now : Nat) (agent_id : String) (s : OrchState) : OrchState :=
  if s.quarantineSet agent_id then s
  else if !has_baseline then s
  else if !has_recent then s
  else
    match det with
    | none => s
    | some infection =>
      if (keys s.rejected).contains agent_id then s
      else
        let s1 := { s with total_infections := s.total_infections + 1 }
        let s2 := quarantine_add s1 agent_id
        let s3 := { s2 with agents := updateAgentMap s2.agents agent_id Agent.quarantine }
        if SEVERITY_REQUIRING_APPROVAL ≤ infection.severity then
          let s4 := { s3 with pending := (assocSet s3.pending agent_id
            ⟨infection, diagnose agent_id infection, now⟩) }
          { s4 with action_log := (log_action s4.action_log
            (approval_requested_entry agent_id infection.severity now)) }
        else
          { s3 with chains := s3.chains ++ [⟨agent_id, infection, "auto", ChainPhase.created⟩] }

/-- ImmuneSystemOrchestrator.approve_healing (orchestrator.py lines 200-224):
pop the pending entry; with no entry return (None, False) untouched; on
approval log user_approved and hand the stored infection to the caller; on
rejection log user_rejected and move the entry to the rejected map. -/
def approve_healing (agent_id : String) (approved : Bool) (now : Nat)
    (s : OrchState) : OrchState × Option InfectionReport × Bool :=
  match lookupA s.pending agent_id with
  | none => (s, none, false)
  | some entry =>
    let s1 := { s with pending := assocErase s.pending agent_id }
    if approved then
      ({ s1 with action_log := (log_action s1.action_log
          (user_action_entry "user_approved" agent_id now)) },
       some entry.infection, true)
    else
      ({ s1 with
           action_log := (log_action s1.action_log
             (user_action_entry "user_rejected" agent_id now)),
           rejected := (assocSet s1.rejected agent_id
             ⟨entry.infection, entry.diagnosis, now⟩) },
       none, false)

/-- The loop body of ImmuneSystemOrchestrator.approve_all_pending
(orchestrator.py lines 234-237): one single-agent approve_healing call,
collecting the (agent_id, infection) pair when it was approved. -/
def approve_all_step (approved : Bool) (now : Nat)
    (acc : OrchState × List (String × InfectionReport)) (agent_id : String) :
    OrchState × List (String × InfectionReport) :=
  match approve_healing agent_id approved now acc.1 with
  | (s', some infection, true) => (s', acc.2 ++ [(agent_id, infection)])
  | (s', _, _) => (s', acc.2)

/-- ImmuneSystemOrchestrator.approve_all_pending (orchestrator.py
lines 226-238): snapshot the pending keys, then run the single-agent
approve_healing once per key, collecting the (agent_id, infection) pairs of
the approved ones — there is no separate bulk algorithm. -/
def approve_all_pending (approved : Bool) (now : Nat) (s : OrchState) :
    OrchState × List (String × InfectionReport) :=
  (keys s.pending).foldl (approve_all_step approved now) (s, [])

/-- ImmuneSystemOrchestrator.start_healing_explicitly (orchestrator.py
lines 257-270): pop the rejected entry; with no entry return None untouched;
otherwise log explicit_heal_requested and hand the stored infection to the
caller. -/
def start_healing_explicitly (agent_id : String) (now : Nat) (s : OrchState) :
    OrchState × Option InfectionReport :=
  match lookupA s.rejected agent_id with
  | none => (s, none)
  | some entry =>
    ({ s with rejected := assocErase s.rejected agent_id,
              action_log := (log_action s.action_log
                (user_action_entry "explicit_heal_requested" agent_id now)) },
     some entry.infection)

/-- approve_healing followed by the caller scheduling heal_agent on approval
(the presentation layer, and the drain sequence at orchestrator.py
lines 454-456): the scheduled task appears as a chain in the created phase. -/
def approve_and_schedule (agent_id : String) (approved : Bool) (now : Nat)
    (trigger : String) (s : OrchState) : OrchState :=
  match approve_healing agent_id approved now s with
  | (s', some infection, true) =>
      { s' with chains := s'.chains ++ [⟨agent_id, infection, trigger, ChainPhase.created⟩] }
  | (s', _, _) => s'

/-- start_healing_explicitly followed by the caller scheduling heal_agent
(the presentation layer, and the drain sequence at orchestrator.py
lines 457-459). -/
def heal_now_and_schedule (agent_id : String) (now : Nat) (trigger : String)
    (s : OrchState) : OrchState :=
  match start_healing_explicitly agent_id now s with
  | (s', some infection) =>
      { s' with chains := s'.chains ++ [⟨agent_id, infection, trigger, ChainPhase.created⟩] }
  | (s', none) => s'

/-- The first statement of heal_agent (orchestrator.py line 288): the scheduled
task begins executing and adds its agent to healing_in_progress. -/
def chain_enter (c : Chain) (s : OrchState) : OrchState :=
  { s with
      chains := (s.chains.map (fun c' =>
        if c'.agent_id == c.agent_id then { c' with phase := ChainPhase.running } else c')),
      healing_in_progress := setFlag s.healing_in_progress c.agent_id true }

/-- Remove the chain of an agent whose heal_agent task has reached a terminal
state (the finally-discard at orchestrator.py line 359 happens in the same
synchronous block). -/
def remove_chain (id : String) (l : List Chain) : List Chain :=
  l.filter (fun c => !(c.agent_id == id))

/-- One pass of the body of heal_agent for a running chain (orchestrator.py
lines 290-359): re-diagnose (`diagnose`, constant per agent and infection),
fetch the policy for the fault category and the known-failed set from outcome
memory, and select the next action.  With none left, the exhaustion branch
(lines 320-324) logs an error and releases the agent from quarantine uncured,
ending the chain.  Otherwise Healer.apply_healing runs with validation result
`applyOk` (collaborator, never throws); the attempt is recorded in outcome
memory and the action log (lines 331-343); on success the agent is cured by
the applied remediation (spec section 4.4 step 7) and released, the success
counter increments and the chain ends (lines 345-349); on failure the failure
counter increments and the chain recurses, staying active (lines 350-357).
Mutations between awaits are grouped into this one atomic block because no
modelled state component changes at the intermediate await points. -/
def heal_agent_step (diagnose : String → InfectionReport → Diagnosis)
    (policy : String → List String) (c : Chain) (applyOk : Bool) (t : Nat)
    (s : OrchState) : OrchState :=
  let id := c.agent_id
  let dt := (diagnose id c.infection).diagnosis_type
  match get_next_action (policy dt) (get_failed_actions s.memory id dt) with
  | none =>
    { s with
        error_log := s.error_log ++ ["All healing actions exhausted for " ++ id],
        quarantineSet := setFlag s.quarantineSet id false,
        agents := updateAgentMap s.agents id Agent.release,
        chains := remove_chain id s.chains,
        healing_in_progress := setFlag s.healing_in_progress id false }
  | some a =>
    let s1 := { s with
        memory := record_healing s.memory ⟨id, dt, a, applyOk⟩,
        action_log := (log_action s.action_log
          (healing_attempt_entry id dt a applyOk c.trigger t)) }
    if applyOk then
      { s1 with
          agents := updateAgentMap s1.agents id (fun ag => (Agent.cure ag).release),
          quarantineSet := setFlag s1.quarantineSet id false,
          total_healed := s1.total_healed + 1,
          chains := remove_chain id s1.chains,
          healing_in_progress := setFlag s1.healing_in_progress id false }
    else
      { s1 with total_failed_healings := s1.total_failed_healings + 1 }

/-- ChaosInjector's effect on one agent (BaseAgent.infect, agents.py
lines 132-136); the injector's target choice (chaos.py, a collaborator) is
left as an oracle. -/
def inject_infection (agent_id infection_type : String) (s : OrchState) :
    OrchState :=
  { s with agents := (updateAgentMap s.agents agent_id
      (fun ag => ag.infect infection_type)) }

/-- The initial orchestrator state (ImmuneSystemOrchestrator.__init__,
orchestrator.py lines 41-76): empty maps, sets, log and counters. -/
def initState (agents0 : String → Agent) : OrchState :=
  { agents := agents0, quarantineSet := fun _ => false, total_quarantines := 0,
    pending := [], rejected := [], healing_in_progress := fun _ => false,
    action_log := [], total_infections := 0, total_healed := 0,
    total_failed_healings := 0, memory := [], chains := [], error_log := [] }

lemma mem_keys_assocErase {α : Type} (l : List (String × α)) (k id : String) :
    id ∈ keys (assocErase l k) ↔ id ∈ keys l ∧ id ≠ k := by
  induction l with
  | nil => simp [assocErase, keys]
  | cons p rest ih =>
      by_cases hp : p.1 = k
      · rw [show assocErase (p :: rest) k = assocErase rest k by
          simp [assocErase, hp]]
        rw [ih]
        simp only [keys, List.map_cons, List.mem_cons]
        constructor
        · rintro ⟨hm, hne⟩; exact ⟨Or.inr hm, hne⟩
        · rintro ⟨hm | hm, hne⟩
          · exact absurd (hm.trans hp) hne
          · exact ⟨hm, hne⟩
      · rw [show assocErase (p :: rest) k = p :: assocErase rest k by
          simp [assocErase, hp]]
        simp only [keys, List.map_cons, List.mem_cons] at ih ⊢
        rw [ih]
        constructor
        · rintro (hm | ⟨hm, hne⟩)
          · exact ⟨Or.inl hm, hm ▸ hp⟩
          · exact ⟨Or.inr hm, hne⟩
        · rintro ⟨hm | hm, hne⟩
          · exact Or.inl hm
          · exact Or.inr ⟨hm, hne⟩

lemma keys_assocSet_of_mem {α : Type} (l : List (String × α)) (k : String) (v : α)
    (h : k ∈ keys l) : keys (assocSet l k v) = keys l := by
  rw [assocSet, if_pos (by simpa [List.elem_iff] using h)]
  unfold keys
  rw [List.map_map]
  apply List.map_congr_left
  intro p _
  by_cases hp : p.1 = k
  · simp [hp]
  · simp [hp]

lemma keys_assocSet_of_not_mem {α : Type} (l : List (String × α)) (k : String) (v : α)
    (h : k ∉ keys l) : keys (assocSet l k v) = keys l ++ [k] := by
  rw [assocSet, if_neg (by simpa [List.elem_iff] using h)]
  simp [keys]

lemma mem_keys_assocSet {α : Type} (l : List (String × α)) (k id : String) (v : α) :
    id ∈ keys (assocSet l k v) ↔ id ∈ keys l ∨ id = k := by
  by_cases h : k ∈ keys l
  · rw [keys_assocSet_of_mem l k v h]
    constructor
    · exact Or.inl
    · rintro (hm | rfl)
      · exact hm
      · exact h
  · rw [keys_assocSet_of_not_mem l k v h]
    simp

lemma lookupA_eq_none_iff {α : Type} (l : List (String × α)) (k : String) :
    lookupA l k = none ↔ k ∉ keys l := by
  unfold lookupA
  rw [Option.map_eq_none', List.find?_eq_none]
  constructor
  · intro h hk
    rcases List.mem_map.mp hk with ⟨p, hp, hpk⟩
    exact absurd (by simpa using hpk) (by simpa using h p hp)
  · intro h p hp
    simp only [beq_iff_eq]
    intro hpk
    exact h (List.mem_map.mpr ⟨p, hp, hpk⟩)

lemma lookupA_some_mem_keys {α : Type} {l : List (String × α)} {k : String} {v : α}
    (h : lookupA l k = some v) : k ∈ keys l := by
  by_contra hk
  rw [(lookupA_eq_none_iff l k).mpr hk] at h
  cases h

lemma lookupA_append_not_mem {α : Type} (l : List (String × α)) (k : String) (v : α)
    (h : k ∉ keys l) : lookupA (l ++ [(k, v)]) k = some v := by
  induction l with
  | nil => simp [lookupA]
  | cons p rest ih =>
      simp only [keys, List.map_cons, List.mem_cons, not_or] at h
      rw [List.cons_append]
      unfold lookupA
      rw [List.find?_cons_of_neg _ (by simpa using fun hh => h.1 hh.symm)]
      exact ih (by simpa [keys] using h.2)

lemma lookupA_map_replace_self {α : Type} (l : List (String × α)) (k : String) (v : α)
    (h : k ∈ keys l) :
    lookupA (l.map (fun p => if p.1 == k then (k, v) else p)) k = some v := by
  induction l with
  | nil => cases h
  | cons p rest ih =>
      by_cases hp : p.1 = k
      · rw [List.map_cons, if_pos (by simpa using hp)]
        unfold lookupA
        rw [List.find?_cons_of_pos _ (by simp)]
        rfl
      · rw [List.map_cons, if_neg (by simpa using hp)]
        unfold lookupA
        rw [List.find?_cons_of_neg _ (by simpa using hp)]
        have h' : k ∈ keys rest := by
          simp only [keys, List.map_cons, List.mem_cons] at h
          rcases h with h | h
          · exact absurd h.symm hp
          · exact h
        exact ih h'

lemma lookupA_assocSet_self {α : Type} (l : List (String × α)) (k : String) (v : α) :
    lookupA (assocSet l k v) k = some v := by
  rw [assocSet]
  split
  · rename_i hc
    exact lookupA_map_replace_self l k v (by simpa [List.contains, List.elem_iff] using hc)
  · rename_i hc
    exact lookupA_append_not_mem l k v (by simpa [List.contains, List.elem_iff] using hc)

/-- C1: for a positive infection detection in the anomaly sweep (agent not
quarantined, baseline present, recent telemetry present, not in the rejected
map): severity at or above SEVERITY_REQUIRING_APPROVAL diagnoses immediately,
places an entry keyed by the agent id into the pending-approval map, logs an
approval_requested action, and schedules no healing chain; severity below the
threshold schedules a healing chain asynchronously (a created-phase task) and
creates no pending-approval entry and no log entry. -/
theorem C1_severity_routing (diagnose : String → InfectionReport → Diagnosis)
    (agent_id : String) (infection : InfectionReport) (now : Nat) (s : OrchState)
    (hq : s.quarantineSet agent_id = false)
    (hrj : agent_id ∉ keys s.rejected) :
    (SEVERITY_REQUIRING_APPROVAL ≤ infection.severity →
      lookupA (sentinel_step diagnose true true (some infection) now agent_id s).pending
          agent_id
        = some ⟨infection, diagnose agent_id infection, now⟩ ∧
      (sentinel_step diagnose true true (some infection) now agent_id s).action_log
        = log_action s.action_log (approval_requested_entry agent_id infection.severity now) ∧
      (sentinel_step diagnose true true (some infection) now agent_id s).chains
        = s.chains) ∧
    (infection.severity < SEVERITY_REQUIRING_APPROVAL →
      (sentinel_step diagnose true true (some infection) now agent_id s).chains
        = s.chains ++ [⟨agent_id, infection, "auto", ChainPhase.created⟩] ∧
      (sentinel_step diagnose true true (some infection) now agent_id s).pending
        = s.pending ∧
      (sentinel_step diagnose true true (some infection) now agent_id s).action_log
        = s.action_log) := by
  have hcon : ((keys s.rejected).contains agent_id) = false := by
    rw [← Bool.not_eq_true]
    simpa [List.contains, List.elem_iff] using hrj
  constructor
  · intro hsev
    unfold sentinel_step
    rw [if_neg (by simp [hq]), if_neg (by simp), if_neg (by simp)]
    simp only [hcon, Bool.false_eq_true, if_false, if_pos hsev]
    exact ⟨lookupA_assocSet_self _ _ _, rfl, rfl⟩
  · intro hsev
    unfold sentinel_step
    rw [if_neg (by simp [hq]), if_neg (by simp), if_neg (by simp)]
    simp only [hcon, Bool.false_eq_true, if_false, if_neg (not_le.mpr hsev)]
    exact ⟨rfl, rfl, rfl⟩

/-- C1 witness: from the initial state, a severity-8 detection files a pending
approval without scheduling a chain. -/
theorem C1_witness :
    ((initState (fun _ => ⟨false, none, AgentStatus.healthy⟩)).quarantineSet "a1"
      = false) ∧
    ("a1" ∉ keys (initState (fun _ => ⟨false, none, AgentStatus.healthy⟩)).rejected) ∧
    (SEVERITY_REQUIRING_APPROVAL ≤ (8 : ℚ)) ∧
    lookupA (sentinel_step (fun _ _ => ⟨"memory_corruption", 1, "r"⟩) true true
        (some ⟨8, ["latency"]⟩) 0 "a1"
        (initState (fun _ => ⟨false, none, AgentStatus.healthy⟩))).pending "a1"
      = some ⟨⟨8, ["latency"]⟩, ⟨"memory_corruption", 1, "r"⟩, 0⟩ := by
  refine ⟨rfl, by simp [initState, keys], by norm_num [SEVERITY_REQUIRING_APPROVAL], ?_⟩
  exact ((C1_severity_routing (fun _ _ => ⟨"memory_corruption", 1, "r"⟩) "a1"
    ⟨8, ["latency"]⟩ 0 (initState (fun _ => ⟨false, none, AgentStatus.healthy⟩))
    rfl (by simp [initState, keys])).1
    (by norm_num [SEVERITY_REQUIRING_APPROVAL])).1

/-- C6: approving or rejecting an agent id with no pending-approval entry
returns (None, False), and heal-now for an agent id with no rejected-approval
entry returns None; in both cases the state (pending and rejected maps, action
log, counters, quarantine set) is returned unmodified and no failure occurs. -/
theorem C6_misuse_is_noop (agent_id : String) (approved : Bool) (now : Nat)
    (s : OrchState) :
    (lookupA s.pending agent_id = none →
      approve_healing agent_id approved now s = (s, none, false)) ∧
    (lookupA s.rejected agent_id = none →
      start_healing_explicitly agent_id now s = (s, none)) := by
  constructor
  · intro h
    unfold approve_healing
    rw [h]
  · intro h
    unfold start_healing_explicitly
    rw [h]

/-- C6 witness: in the initial state both misuse calls are no-ops. -/
theorem C6_witness :
    lookupA (initState (fun _ => ⟨false, none, AgentStatus.healthy⟩)).pending "a1"
      = none ∧
    lookupA (initState (fun _ => ⟨false, none, AgentStatus.healthy⟩)).rejected "a1"
      = none ∧
    approve_healing "a1" true 0 (initState (fun _ => ⟨false, none, AgentStatus.healthy⟩))
      = (initState (fun _ => ⟨false, none, AgentStatus.healthy⟩), none, false) ∧
    start_healing_explicitly "a1" 0 (initState (fun _ => ⟨false, none, AgentStatus.healthy⟩))
      = (initState (fun _ => ⟨false, none, AgentStatus.healthy⟩), none) := by
  refine ⟨rfl, rfl, ?_, ?_⟩
  · exact (C6_misuse_is_noop "a1" true 0 _).1 rfl
  · exact (C6_misuse_is_noop "a1" true 0 _).2 rfl

/-- C9: while an agent id sits in the rejected-approval map, a sweep iteration
for it is a complete no-op regardless of the detection oracle: it creates no
pending entry, does not increment the infection counter, and schedules no
healing chain (the whole state is unchanged). -/
theorem C9_rejected_detection_suppressed (diagnose : String → InfectionReport → Diagnosis)
    (has_baseline has_recent : Bool) (det : Option InfectionReport)
    (now : Nat) (agent_id : String) (s : OrchState)
    (hrj : agent_id ∈ keys s.rejected) :
    sentinel_step diagnose has_baseline has_recent det now agent_id s = s := by
  have hcon : ((keys s.rejected).contains agent_id) = true := by
    simpa [List.contains, List.elem_iff] using hrj
  by_cases hq : s.quarantineSet agent_id = true
  · unfold sentinel_step
    rw [if_pos hq]
  · unfold sentinel_step
    rw [if_neg hq]
    by_cases hb : (!has_baseline) = true
    · rw [if_pos hb]
    · rw [if_neg hb]
      by_cases hrc : (!has_recent) = true
      · rw [if_pos hrc]
      · rw [if_neg hrc]
        cases det with
        | none => rfl
        | some infection =>
            dsimp only
            rw [if_pos hcon]

/-- C9 witness: with a1 in the rejected map, a severity-8 re-detection leaves
the state untouched. -/
theorem C9_witness :
    ("a1" ∈ keys ({ initState (fun _ => ⟨false, none, AgentStatus.healthy⟩) with
      rejected := [("a1", ⟨⟨8, []⟩, ⟨"memory_corruption", 1, "r"⟩, 0⟩)] } : OrchState).rejected) ∧
    sentinel_step (fun _ _ => ⟨"memory_corruption", 1, "r"⟩) true true (some ⟨8, []⟩) 1 "a1"
      ({ initState (fun _ => ⟨false, none, AgentStatus.healthy⟩) with
        rejected := [("a1", ⟨⟨8, []⟩, ⟨"memory_corruption", 1, "r"⟩, 0⟩)] } : OrchState)
      = ({ initState (fun _ => ⟨false, none, AgentStatus.healthy⟩) with
        rejected := [("a1", ⟨⟨8, []⟩, ⟨"memory_corruption", 1, "r"⟩, 0⟩)] } : OrchState) := by
  refine ⟨by simp [keys], ?_⟩
  exact C9_rejected_detection_suppressed (fun _ _ => ⟨"memory_corruption", 1, "r"⟩)
    true true (some ⟨8, []⟩) 1 "a1" _ (by simp [keys])

lemma assocErase_not_mem {α : Type} (l : List (String × α)) (k : String)
    (h : k ∉ keys l) : assocErase l k = l := by
  induction l with
  | nil => rfl
  | cons p rest ih =>
      simp only [keys, List.map_cons, List.mem_cons, not_or] at h
      have h1 : ¬p.1 = k := fun hh => h.1 hh.symm
      show (p :: rest).filter (fun q => !(q.1 == k)) = p :: rest
      rw [List.filter_cons_of_pos (by simpa using h1)]
      exact congrArg (p :: ·) (ih (by simpa [keys] using h.2))

lemma approve_all_pending_go (now : Nat) :
    ∀ (l : List (String × ApprovalEntry)) (s : OrchState)
      (acc : List (String × InfectionReport)),
      s.pending = l → (keys l).Nodup →
      ((keys l).foldl (approve_all_step true now) (s, acc)).1.pending = [] ∧
      ((keys l).foldl (approve_all_step true now) (s, acc)).1.rejected = s.rejected ∧
      ((keys l).foldl (approve_all_step true now) (s, acc)).1.chains = s.chains ∧
      ((keys l).foldl (approve_all_step true now) (s, acc)).2
        = acc ++ l.map (fun p => (p.1, p.2.infection)) := by
  intro l
  induction l with
  | nil =>
      intro s acc hpend _
      refine ⟨hpend, rfl, rfl, by simp [keys]⟩
  | cons p rest ih =>
      intro s acc hpend hnd
      obtain ⟨k, e⟩ := p
      have hkeys : keys ((k, e) :: rest) = k :: keys rest := rfl
      have hnd' : (keys rest).Nodup ∧ k ∉ keys rest := by
        rw [hkeys] at hnd
        exact ⟨(List.nodup_cons.mp hnd).2, (List.nodup_cons.mp hnd).1⟩
      have hlook : lookupA s.pending k = some e := by
        rw [hpend]
        unfold lookupA
        rw [List.find?_cons_of_pos _ (by simp)]
        rfl
      have herase : assocErase s.pending k = rest := by
        rw [hpend]
        show ((k, e) :: rest).filter (fun q => !(q.1 == k)) = rest
        rw [List.filter_cons_of_neg (by simp)]
        exact assocErase_not_mem rest k hnd'.2
      have happ : approve_healing k true now s
          = ({ s with
                pending := rest,
                action_log := (log_action s.action_log
                  (user_action_entry "user_approved" k now)) },
             some e.infection, true) := by
        unfold approve_healing
        rw [hlook]
        dsimp only
        rw [if_pos rfl, herase]
      have hstep : approve_all_step true now (s, acc) k
          = ({ s with
                pending := rest,
                action_log := (log_action s.action_log
                  (user_action_entry "user_approved" k now)) },
             acc ++ [(k, e.infection)]) := by
        unfold approve_all_step
        rw [happ]
      rw [hkeys, List.foldl_cons, hstep]
      have hres := ih ({ s with
          pending := rest,
          action_log := (log_action s.action_log
            (user_action_entry "user_approved" k now)) })
        (acc ++ [(k, e.infection)]) rfl hnd'.1
      refine ⟨hres.1, hres.2.1, hres.2.2.1, ?_⟩
      rw [hres.2.2.2, List.map_cons, List.append_assoc]
      rfl

/-- C7: approve_all_pending is the single-agent approve_healing executed once
per agent id in the pending snapshot (it is literally that fold); with distinct
pending keys, approve_all_pending(True) returns exactly one (agent id,
infection) pair per pending entry, in insertion order, and leaves the
pending-approval map empty (the rejected map untouched). -/
theorem C7_bulk_approval_equals_singles (now : Nat) (s : OrchState)
    (hnd : (keys s.pending).Nodup) :
    (approve_all_pending true now s).2
      = s.pending.map (fun p => (p.1, p.2.infection)) ∧
    (approve_all_pending true now s).1.pending = [] ∧
    (approve_all_pending true now s).1.rejected = s.rejected ∧
    (approve_all_pending true now s).2.length = s.pending.length := by
  have h := approve_all_pending_go now s.pending s [] rfl hnd
  unfold approve_all_pending
  refine ⟨?_, h.1, h.2.1, ?_⟩
  · rw [h.2.2.2]
    simp
  · rw [h.2.2.2]
    simp

/-- C7 witness: with three pending entries, approve-all(True) returns exactly
the three (agent id, infection) pairs and empties the pending map. -/
theorem C7_witness :
    (approve_all_pending true 9 ({ initState (fun _ => ⟨false, none, AgentStatus.healthy⟩) with
      pending := [("a1", ⟨⟨8, []⟩, ⟨"d1", 1, "r"⟩, 0⟩),
                  ("a2", ⟨⟨9, []⟩, ⟨"d2", 1, "r"⟩, 1⟩),
                  ("a3", ⟨⟨7, []⟩, ⟨"d3", 1, "r"⟩, 2⟩)] } : OrchState)).2
      = [("a1", ⟨8, []⟩), ("a2", ⟨9, []⟩), ("a3", ⟨7, []⟩)] ∧
    (approve_all_pending true 9 ({ initState (fun _ => ⟨false, none, AgentStatus.healthy⟩) with
      pending := [("a1", ⟨⟨8, []⟩, ⟨"d1", 1, "r"⟩, 0⟩),
                  ("a2", ⟨⟨9, []⟩, ⟨"d2", 1, "r"⟩, 1⟩),
                  ("a3", ⟨⟨7, []⟩, ⟨"d3", 1, "r"⟩, 2⟩)] } : OrchState)).1.pending = [] := by
  constructor
  · exact ((C7_bulk_approval_equals_singles 9 _ (by decide)).1).trans rfl
  · exact (C7_bulk_approval_equals_singles 9 _ (by decide)).2.1

/-- One atomic transition of the orchestrator: the await-free blocks of the
sweep loop body, of heal_agent, the thread-safe approval-workflow calls
together with the caller scheduling the returned work, and a chaos injection.
The detection results, the wall-clock values and Healer validation outcomes
are free oracle parameters, so every real interleaving is a sequence of these
steps. -/
inductive Step (diagnose : String → InfectionReport → Diagnosis)
    (policy : String → List String) : OrchState → OrchState → Prop where
  | sentinel (has_baseline has_recent : Bool) (det : Option InfectionReport)
      (now : Nat) (agent_id : String) (s : OrchState) :
      Step diagnose policy s (sentinel_step diagnose has_baseline has_recent det now agent_id s)
  | enter (c : Chain) (s : OrchState) (hc : c ∈ s.chains)
      (hph : c.phase = ChainPhase.created) :
      Step diagnose policy s (chain_enter c s)
  | healStep (c : Chain) (applyOk : Bool) (t : Nat) (s : OrchState)
      (hc : c ∈ s.chains) (hph : c.phase = ChainPhase.running) :
      Step diagnose policy s (heal_agent_step diagnose policy c applyOk t s)
  | approve (agent_id : String) (approved : Bool) (now : Nat) (trigger : String)
      (s : OrchState) :
      Step diagnose policy s (approve_and_schedule agent_id approved now trigger s)
  | healNow (agent_id : String) (now : Nat) (trigger : String) (s : OrchState) :
      Step diagnose policy s (heal_now_and_schedule agent_id now trigger s)
  | inject (agent_id infection_type : String) (s : OrchState) :
      Step diagnose policy s (inject_infection agent_id infection_type s)

/-- Reachability from a fresh orchestrator over any sequence of atomic steps. -/
inductive Reach (diagnose : String → InfectionReport → Diagnosis)
    (policy : String → List String) : OrchState → Prop where
  | init (agents0 : String → Agent) : Reach diagnose policy (initState agents0)
  | step {s s' : OrchState} : Reach diagnose policy s →
      Step diagnose policy s s' → Reach diagnose policy s'

/-- The inductive invariant tying together the approval maps, the quarantine
set, the scheduled healing chains and the healing_in_progress set. -/
structure OrchInv (s : OrchState) : Prop where
  chains_nodup : (s.chains.map Chain.agent_id).Nodup
  pending_quar : ∀ id, id ∈ keys s.pending → s.quarantineSet id = true
  rejected_quar : ∀ id, id ∈ keys s.rejected → s.quarantineSet id = true
  chain_quar : ∀ c, c ∈ s.chains → s.quarantineSet c.agent_id = true
  pending_not_rejected : ∀ id, id ∈ keys s.pending → id ∉ keys s.rejected
  chain_not_pending : ∀ c, c ∈ s.chains → c.agent_id ∉ keys s.pending
  chain_not_rejected : ∀ c, c ∈ s.chains → c.agent_id ∉ keys s.rejected
  running_healing : ∀ c, c ∈ s.chains → c.phase = ChainPhase.running →
    s.healing_in_progress c.agent_id = true
  healing_running : ∀ id, s.healing_in_progress id = true →
    ∃ c, c ∈ s.chains ∧ c.agent_id = id ∧ c.phase = ChainPhase.running

lemma setFlag_self (f : String → Bool) (id : String) (b : Bool) :
    setFlag f id b id = b := by
  simp [setFlag]

lemma setFlag_ne {f : String → Bool} {x id : String} (hne : x ≠ id) (b : Bool) :
    setFlag f id b x = f x := by
  simp [setFlag, hne]

lemma setFlag_true_preserve {f : String → Bool} {x : String} (id : String)
    (h : f x = true) : setFlag f id true x = true := by
  unfold setFlag
  split
  · rfl
  · exact h

lemma setFlag_false_elim {f : String → Bool} {x id : String}
    (h : setFlag f id false x = true) : f x = true ∧ x ≠ id := by
  unfold setFlag at h
  split at h
  · cases h
  · exact ⟨h, by assumption⟩

lemma mem_remove_chain {id : String} {l : List Chain} {c : Chain} :
    c ∈ remove_chain id l ↔ c ∈ l ∧ c.agent_id ≠ id := by
  unfold remove_chain
  rw [List.mem_filter]
  simp

lemma nodup_map_remove_chain {id : String} {l : List Chain}
    (h : (l.map Chain.agent_id).Nodup) :
    ((remove_chain id l).map Chain.agent_id).Nodup :=
  List.Nodup.sublist (List.Sublist.map Chain.agent_id (List.filter_sublist l)) h

lemma nodup_append_singleton {α : Type} {l : List α} {a : α}
    (h : l.Nodup) (ha : a ∉ l) : (l ++ [a]).Nodup := by
  rw [List.nodup_append]
  exact ⟨h, List.nodup_singleton a, by simpa [List.disjoint_singleton] using ha⟩

lemma map_agentId_chain_enter (c : Chain) (l : List Chain) :
    ((l.map (fun c' => if c'.agent_id == c.agent_id
        then { c' with phase := ChainPhase.running } else c')).map Chain.agent_id)
      = l.map Chain.agent_id := by
  rw [List.map_map]
  apply List.map_congr_left
  intro c' _
  by_cases h : c'.agent_id = c.agent_id
  · simp [h]
  · simp [h]

lemma inv_init (agents0 : String → Agent) : OrchInv (initState agents0) := by
  refine ⟨?_, ?_, ?_, ?_, ?_, ?_, ?_, ?_, ?_⟩ <;>
    simp [initState, keys]

lemma inv_sentinel (diagnose : String → InfectionReport → Diagnosis)
    (has_baseline has_recent : Bool) (det : Option InfectionReport)
    (now : Nat) (agent_id : String) {s : OrchState} (h : OrchInv s) :
    OrchInv (sentinel_step diagnose has_baseline has_recent det now agent_id s) := by
  by_cases hq : s.quarantineSet agent_id = true
  · unfold sentinel_step
    rw [if_pos hq]
    exact h
  · unfold sentinel_step
    rw [if_neg hq]
    by_cases hbb : (!has_baseline) = true
    · rw [if_pos hbb]
      exact h
    · rw [if_neg hbb]
      by_cases hrr : (!has_recent) = true
      · rw [if_pos hrr]
        exact h
      · rw [if_neg hrr]
        cases det with
        | none => exact h
        | some infection =>
          dsimp only
          by_cases hrej : ((keys s.rejected).contains agent_id) = true
          · rw [if_pos hrej]
            exact h
          · rw [if_neg hrej]
            have hrejm : agent_id ∉ keys s.rejected := fun hm =>
              hrej (by simpa [List.contains, List.elem_iff] using hm)
            have hpendm : agent_id ∉ keys s.pending := fun hm =>
              hq (h.pending_quar agent_id hm)
            have hchm : ∀ c, c ∈ s.chains → c.agent_id ≠ agent_id := by
              intro c hc heq
              exact hq (heq ▸ h.chain_quar c hc)
            by_cases hsev : SEVERITY_REQUIRING_APPROVAL ≤ infection.severity
            · rw [if_pos hsev]
              refine ⟨h.chains_nodup, ?_, ?_, ?_, ?_, ?_, h.chain_not_rejected,
                h.running_healing, h.healing_running⟩
              · intro id hid
                rcases (mem_keys_assocSet _ _ _ _).mp hid with hold | rfl
                · exact setFlag_true_preserve _ (h.pending_quar id hold)
                · exact setFlag_self _ _ _
              · intro id hid
                exact setFlag_true_preserve _ (h.rejected_quar id hid)
              · intro c hc
                exact setFlag_true_preserve _ (h.chain_quar c hc)
              · intro id hid
                rcases (mem_keys_assocSet _ _ _ _).mp hid with hold | rfl
                · exact h.pending_not_rejected id hold
                · exact hrejm
              · intro c hc hmem
                rcases (mem_keys_assocSet _ _ _ _).mp hmem with hold | heq
                · exact h.chain_not_pending c hc hold
                · exact hchm c hc heq
            · rw [if_neg hsev]
              refine ⟨?_, ?_, ?_, ?_, h.pending_not_rejected, ?_, ?_, ?_, ?_⟩
              · rw [List.map_append]
                exact nodup_append_singleton h.chains_nodup
                  (by
                    intro hmem
                    rcases List.mem_map.mp hmem with ⟨c, hc, hceq⟩
                    exact hchm c hc hceq)
              · intro id hid
                exact setFlag_true_preserve _ (h.pending_quar id hid)
              · intro id hid
                exact setFlag_true_preserve _ (h.rejected_quar id hid)
              · intro c hc
                rcases List.mem_append.mp hc with hold | hnew
                · exact setFlag_true_preserve _ (h.chain_quar c hold)
                · rw [List.mem_singleton.mp hnew]
                  exact setFlag_self _ _ _
              · intro c hc
                rcases List.mem_append.mp hc with hold | hnew
                · exact h.chain_not_pending c hold
                · rw [List.mem_singleton.mp hnew]
                  exact hpendm
              · intro c hc
                rcases List.mem_append.mp hc with hold | hnew
                · exact h.chain_not_rejected c hold
                · rw [List.mem_singleton.mp hnew]
                  exact hrejm
              · intro c hc hrun
                rcases List.mem_append.mp hc with hold | hnew
                · exact h.running_healing c hold hrun
                · rw [List.mem_singleton.mp hnew] at hrun
                  cases hrun
              · intro id hid
                rcases h.healing_running id hid with ⟨c, hc, hceq, hcrun⟩
                exact ⟨c, List.mem_append_left _ hc, hceq, hcrun⟩

lemma inv_chain_enter (c : Chain) {s : OrchState} (hc : c ∈ s.chains)
    (h : OrchInv s) : OrchInv (chain_enter c s) := by
  unfold chain_enter
  refine ⟨?_, h.pending_quar, h.rejected_quar, ?_, h.pending_not_rejected,
    ?_, ?_, ?_, ?_⟩
  · rw [map_agentId_chain_enter]
    exact h.chains_nodup
  · intro c' hc'
    rcases List.mem_map.mp hc' with ⟨c0, hc0, hrepl⟩
    have hid : c'.agent_id = c0.agent_id := by
      rw [← hrepl]
      by_cases hb : c0.agent_id = c.agent_id <;> simp [hb]
    rw [hid]
    exact h.chain_quar c0 hc0
  · intro c' hc'
    rcases List.mem_map.mp hc' with ⟨c0, hc0, hrepl⟩
    have hid : c'.agent_id = c0.agent_id := by
      rw [← hrepl]
      by_cases hb : c0.agent_id = c.agent_id <;> simp [hb]
    rw [hid]
    exact h.chain_not_pending c0 hc0
  · intro c' hc'
    rcases List.mem_map.mp hc' with ⟨c0, hc0, hrepl⟩
    have hid : c'.agent_id = c0.agent_id := by
      rw [← hrepl]
      by_cases hb : c0.agent_id = c.agent_id <;> simp [hb]
    rw [hid]
    exact h.chain_not_rejected c0 hc0
  · intro c' hc' hrun
    rcases List.mem_map.mp hc' with ⟨c0, hc0, hrepl⟩
    by_cases hb : c0.agent_id = c.agent_id
    · have hid : c'.agent_id = c0.agent_id := by
        rw [← hrepl]
        simp [hb]
      rw [hid, hb]
      exact setFlag_self _ _ _
    · have hceq : c' = c0 := by
        rw [← hrepl]
        simp [hb]
      subst hceq
      show setFlag s.healing_in_progress c.agent_id true c'.agent_id = true
      rw [setFlag_ne hb]
      exact h.running_healing c' hc0 hrun
  · intro id hid
    by_cases hb : id = c.agent_id
    · subst hb
      refine ⟨{ c with phase := ChainPhase.running }, ?_, rfl, rfl⟩
      refine List.mem_map.mpr ⟨c, hc, ?_⟩
      simp
    · have hid' : setFlag s.healing_in_progress c.agent_id true id = true := hid
      rw [setFlag_ne hb] at hid'
      rcases h.healing_running id hid' with ⟨c0, hc0, hceq, hcrun⟩
      refine ⟨c0, ?_, hceq, hcrun⟩
      refine List.mem_map.mpr ⟨c0, hc0, ?_⟩
      have : ¬c0.agent_id = c.agent_id := by
        rw [hceq]
        exact hb
      simp [this]

lemma inv_heal_agent_step (diagnose : String → InfectionReport → Diagnosis)
    (policy : String → List String) (c : Chain) (applyOk : Bool) (t : Nat)
    {s : OrchState} (hc : c ∈ s.chains) (h : OrchInv s) :
    OrchInv (heal_agent_step diagnose policy c applyOk t s) := by
  have hnp : c.agent_id ∉ keys s.pending := h.chain_not_pending c hc
  have hnr : c.agent_id ∉ keys s.rejected := h.chain_not_rejected c hc
  have hterm : ∀ (s1 : OrchState), s1.pending = s.pending → s1.rejected = s.rejected →
      s1.chains = s.chains →
      s1.healing_in_progress = s.healing_in_progress →
      s1.quarantineSet = s.quarantineSet →
      OrchInv { s1 with
        quarantineSet := setFlag s1.quarantineSet c.agent_id false,
        chains := remove_chain c.agent_id s1.chains,
        healing_in_progress := setFlag s1.healing_in_progress c.agent_id false } := by
    intro s1 hp hr hch hh hq
    refine ⟨?_, ?_, ?_, ?_, ?_, ?_, ?_, ?_, ?_⟩
    · show ((remove_chain c.agent_id s1.chains).map Chain.agent_id).Nodup
      rw [hch]
      exact nodup_map_remove_chain h.chains_nodup
    · intro id hid
      rw [hp] at hid
      have hne : id ≠ c.agent_id := fun he => hnp (he ▸ hid)
      show setFlag s1.quarantineSet c.agent_id false id = true
      rw [setFlag_ne hne, hq]
      exact h.pending_quar id hid
    · intro id hid
      rw [hr] at hid
      have hne : id ≠ c.agent_id := fun he => hnr (he ▸ hid)
      show setFlag s1.quarantineSet c.agent_id false id = true
      rw [setFlag_ne hne, hq]
      exact h.rejected_quar id hid
    · intro c' hc'
      rw [hch] at hc'
      rcases mem_remove_chain.mp hc' with ⟨hold, hne⟩
      show setFlag s1.quarantineSet c.agent_id false c'.agent_id = true
      rw [setFlag_ne hne, hq]
      exact h.chain_quar c' hold
    · intro id hid
      rw [hp] at hid
      rw [hr]
      exact h.pending_not_rejected id hid
    · intro c' hc'
      rw [hch] at hc'
      rw [hp]
      exact h.chain_not_pending c' (mem_remove_chain.mp hc').1
    · intro c' hc'
      rw [hch] at hc'
      rw [hr]
      exact h.chain_not_rejected c' (mem_remove_chain.mp hc').1
    · intro c' hc' hrun
      rw [hch] at hc'
      rcases mem_remove_chain.mp hc' with ⟨hold, hne⟩
      show setFlag s1.healing_in_progress c.agent_id false c'.agent_id = true
      rw [setFlag_ne hne, hh]
      exact h.running_healing c' hold hrun
    · intro id hid
      rcases setFlag_false_elim hid with ⟨hidh, hne⟩
      rw [hh] at hidh
      rcases h.healing_running id hidh with ⟨c0, hc0, hceq, hcrun⟩
      refine ⟨c0, ?_, hceq, hcrun⟩
      rw [hch]
      exact mem_remove_chain.mpr ⟨hc0, hceq ▸ hne⟩
  unfold heal_agent_step
  dsimp only
  cases hna : get_next_action (policy (diagnose c.agent_id c.infection).diagnosis_type)
      (get_failed_actions s.memory c.agent_id
        (diagnose c.agent_id c.infection).diagnosis_type) with
  | none =>
      exact hterm { s with
        error_log := s.error_log ++ ["All healing actions exhausted for " ++ c.agent_id],
        agents := updateAgentMap s.agents c.agent_id Agent.release }
        rfl rfl rfl rfl rfl
  | some a =>
      cases applyOk with
      | true =>
          exact hterm { s with
            memory := record_healing s.memory
              ⟨c.agent_id, (diagnose c.agent_id c.infection).diagnosis_type, a, true⟩,
            action_log := (log_action s.action_log (healing_attempt_entry c.agent_id
              (diagnose c.agent_id c.infection).diagnosis_type a true c.trigger t)),
            agents := updateAgentMap s.agents c.agent_id (fun ag => (Agent.cure ag).release),
            total_healed := s.total_healed + 1 }
            rfl rfl rfl rfl rfl
      | false =>
          exact ⟨h.chains_nodup, h.pending_quar, h.rejected_quar, h.chain_quar,
            h.pending_not_rejected, h.chain_not_pending, h.chain_not_rejected,
            h.running_healing, h.healing_running⟩

lemma inv_approve_and_schedule (agent_id : String) (approved : Bool) (now : Nat)
    (trigger : String) {s : OrchState} (h : OrchInv s) :
    OrchInv (approve_and_schedule agent_id approved now trigger s) := by
  cases hlook : lookupA s.pending agent_id with
  | none =>
      have happ : approve_healing agent_id approved now s = (s, none, false) := by
        unfold approve_healing
        rw [hlook]
      unfold approve_and_schedule
      rw [happ]
      exact h
  | some e =>
      have hmem : agent_id ∈ keys s.pending := lookupA_some_mem_keys hlook
      have hql : s.quarantineSet agent_id = true := h.pending_quar agent_id hmem
      have hnr : agent_id ∉ keys s.rejected := h.pending_not_rejected agent_id hmem
      have hnc : ∀ c, c ∈ s.chains → c.agent_id ≠ agent_id := fun c hc he =>
        h.chain_not_pending c hc (he ▸ hmem)
      cases approved with
      | true =>
          have happ : approve_healing agent_id true now s
              = ({ s with
                    pending := assocErase s.pending agent_id,
                    action_log := (log_action s.action_log
                      (user_action_entry "user_approved" agent_id now)) },
                 some e.infection, true) := by
            unfold approve_healing
            rw [hlook]
            rfl
          unfold approve_and_schedule
          rw [happ]
          dsimp only
          refine ⟨?_, ?_, h.rejected_quar, ?_, ?_, ?_, ?_, ?_, ?_⟩
          · show ((s.chains ++ [(⟨agent_id, e.infection, trigger, ChainPhase.created⟩ : Chain)]).map
              Chain.agent_id).Nodup
            rw [List.map_append]
            refine nodup_append_singleton h.chains_nodup ?_
            intro hm
            rcases List.mem_map.mp hm with ⟨c0, hc0, hceq⟩
            exact hnc c0 hc0 hceq
          · intro id hid
            exact h.pending_quar id ((mem_keys_assocErase _ _ _).mp hid).1
          · intro c hc
            rcases List.mem_append.mp hc with hold | hnew
            · exact h.chain_quar c hold
            · rw [List.mem_singleton.mp hnew]
              exact hql
          · intro id hid
            exact h.pending_not_rejected id ((mem_keys_assocErase _ _ _).mp hid).1
          · intro c hc hm
            rcases List.mem_append.mp hc with hold | hnew
            · exact h.chain_not_pending c hold ((mem_keys_assocErase _ _ _).mp hm).1
            · rw [List.mem_singleton.mp hnew] at hm
              exact ((mem_keys_assocErase _ _ _).mp hm).2 rfl
          · intro c hc
            rcases List.mem_append.mp hc with hold | hnew
            · exact h.chain_not_rejected c hold
            · rw [List.mem_singleton.mp hnew]
              exact hnr
          · intro c hc hrun
            rcases List.mem_append.mp hc with hold | hnew
            · exact h.running_healing c hold hrun
            · rw [List.mem_singleton.mp hnew] at hrun
              cases hrun
          · intro id hid
            rcases h.healing_running id hid with ⟨c0, hc0, hceq, hcrun⟩
            exact ⟨c0, List.mem_append_left _ hc0, hceq, hcrun⟩
      | false =>
          have happ : approve_healing agent_id false now s
              = ({ s with
                    pending := assocErase s.pending agent_id,
                    action_log := (log_action s.action_log
                      (user_action_entry "user_rejected" agent_id now)),
                    rejected := (assocSet s.rejected agent_id
                      ⟨e.infection, e.diagnosis, now⟩) },
                 none, false) := by
            unfold approve_healing
            rw [hlook]
            rfl
          unfold approve_and_schedule
          rw [happ]
          refine ⟨h.chains_nodup, ?_, ?_, h.chain_quar, ?_, ?_, ?_,
            h.running_healing, h.healing_running⟩
          · intro id hid
            exact h.pending_quar id ((mem_keys_assocErase _ _ _).mp hid).1
          · intro id hid
            rcases (mem_keys_assocSet _ _ _ _).mp hid with hold | rfl
            · exact h.rejected_quar id hold
            · exact hql
          · intro id hid
            rcases (mem_keys_assocErase _ _ _).mp hid with ⟨hp, hne⟩
            intro hm
            rcases (mem_keys_assocSet _ _ _ _).mp hm with hold | heq
            · exact h.pending_not_rejected id hp hold
            · exact hne heq
          · intro c hc hm
            exact h.chain_not_pending c hc ((mem_keys_assocErase _ _ _).mp hm).1
          · intro c hc hm
            rcases (mem_keys_assocSet _ _ _ _).mp hm with hold | heq
            · exact h.chain_not_rejected c hc hold
            · exact hnc c hc heq

lemma inv_heal_now_and_schedule (agent_id : String) (now : Nat) (trigger : String)
    {s : OrchState} (h : OrchInv s) :
    OrchInv (heal_now_and_schedule agent_id now trigger s) := by
  cases hlook : lookupA s.rejected agent_id with
  | none =>
      have happ : start_healing_explicitly agent_id now s = (s, none) := by
        unfold start_healing_explicitly
        rw [hlook]
      unfold heal_now_and_schedule
      rw [happ]
      exact h
  | some e =>
      have hmem : agent_id ∈ keys s.rejected := lookupA_some_mem_keys hlook
      have hql : s.quarantineSet agent_id = true := h.rejected_quar agent_id hmem
      have hnp : agent_id ∉ keys s.pending := fun hp =>
        h.pending_not_rejected agent_id hp hmem
      have hnc : ∀ c, c ∈ s.chains → c.agent_id ≠ agent_id := fun c hc he =>
        h.chain_not_rejected c hc (he ▸ hmem)
      have happ : start_healing_explicitly agent_id now s
          = ({ s with
                rejected := assocErase s.rejected agent_id,
                action_log := (log_action s.action_log
                  (user_action_entry "explicit_heal_requested" agent_id now)) },
             some e.infection) := by
        unfold start_healing_explicitly
        rw [hlook]
      unfold heal_now_and_schedule
      rw [happ]
      dsimp only
      refine ⟨?_, h.pending_quar, ?_, ?_, ?_, ?_, ?_, ?_, ?_⟩
      · show ((s.chains ++ [(⟨agent_id, e.infection, trigger, ChainPhase.created⟩ : Chain)]).map
          Chain.agent_id).Nodup
        rw [List.map_append]
        refine nodup_append_singleton h.chains_nodup ?_
        intro hm
        rcases List.mem_map.mp hm with ⟨c0, hc0, hceq⟩
        exact hnc c0 hc0 hceq
      · intro id hid
        exact h.rejected_quar id ((mem_keys_assocErase _ _ _).mp hid).1
      · intro c hc
        rcases List.mem_append.mp hc with hold | hnew
        · exact h.chain_quar c hold
        · rw [List.mem_singleton.mp hnew]
          exact hql
      · intro id hid
        intro hm
        exact h.pending_not_rejected id hid ((mem_keys_assocErase _ _ _).mp hm).1
      · intro c hc
        rcases List.mem_append.mp hc with hold | hnew
        · exact h.chain_not_pending c hold
        · rw [List.mem_singleton.mp hnew]
          exact hnp
      · intro c hc hm
        rcases List.mem_append.mp hc with hold | hnew
        · exact h.chain_not_rejected c hold ((mem_keys_assocErase _ _ _).mp hm).1
        · rw [List.mem_singleton.mp hnew] at hm
          exact ((mem_keys_assocErase _ _ _).mp hm).2 rfl
      · intro c hc hrun
        rcases List.mem_append.mp hc with hold | hnew
        · exact h.running_healing c hold hrun
        · rw [List.mem_singleton.mp hnew] at hrun
          cases hrun
      · intro id hid
        rcases h.healing_running id hid with ⟨c0, hc0, hceq, hcrun⟩
        exact ⟨c0, List.mem_append_left _ hc0, hceq, hcrun⟩

lemma inv_inject (agent_id infection_type : String) {s : OrchState}
    (h : OrchInv s) : OrchInv (inject_infection agent_id infection_type s) :=
  ⟨h.chains_nodup, h.pending_quar, h.rejected_quar, h.chain_quar,
    h.pending_not_rejected, h.chain_not_pending, h.chain_not_rejected,
    h.running_healing, h.healing_running⟩

lemma inv_step {diagnose : String → InfectionReport → Diagnosis}
    {policy : String → List String} {s s' : OrchState}
    (h : OrchInv s) (hstep : Step diagnose policy s s') : OrchInv s' := by
  cases hstep with
  | sentinel hb hr det now agent_id s => exact inv_sentinel diagnose hb hr det now agent_id h
  | enter c s hc hph => exact inv_chain_enter c hc h
  | healStep c applyOk t s hc hph => exact inv_heal_agent_step diagnose policy c applyOk t hc h
  | approve agent_id approved now trigger s => exact inv_approve_and_schedule agent_id approved now trigger h
  | healNow agent_id now trigger s => exact inv_heal_now_and_schedule agent_id now trigger h
  | inject agent_id infection_type s => exact inv_inject agent_id infection_type h

lemma inv_reach {diagnose : String → InfectionReport → Diagnosis}
    {policy : String → List String} {s : OrchState}
    (h : Reach diagnose policy s) : OrchInv s := by
  induction h with
  | init agents0 => exact inv_init agents0
  | step _ hstep ih => exact inv_step ih hstep

/-- C2: in every reachable orchestrator state, the scheduled or running healing
chains carry pairwise distinct agent ids (at most one healing-escalation chain
per agent id at any time); an agent id is in healing_in_progress whenever its
chain is in the running phase — from entry into heal_agent through every
recursive escalation step (the failure branch of heal_agent_step keeps both the
chain and the membership) — and healing_in_progress membership exists only
while such a running chain exists, so the id is removed exactly when the chain
reaches its terminal success or exhaustion state. -/
theorem C2_single_chain_and_membership (diagnose : String → InfectionReport → Diagnosis)
    (policy : String → List String) (s : OrchState) (h : Reach diagnose policy s) :
    (s.chains.map Chain.agent_id).Nodup ∧
    (∀ c, c ∈ s.chains → c.phase = ChainPhase.running →
      s.healing_in_progress c.agent_id = true) ∧
    (∀ id : String, s.healing_in_progress id = true →
      ∃ c, c ∈ s.chains ∧ c.agent_id = id ∧ c.phase = ChainPhase.running) := by
  have hi := inv_reach h
  exact ⟨hi.chains_nodup, hi.running_healing, hi.healing_running⟩

/-- C2 witness: from a fresh orchestrator, a low-severity detection schedules a
chain for a1 and, once the task body enters heal_agent, a1 is in
healing_in_progress. -/
theorem C2_witness :
    (chain_enter ⟨"a1", ⟨4, []⟩, "auto", ChainPhase.created⟩
      (sentinel_step (fun _ _ => ⟨"memory_corruption", 1, "r"⟩) true true (some ⟨4, []⟩)
        0 "a1" (initState (fun _ => ⟨false, none, AgentStatus.healthy⟩)))).healing_in_progress
      "a1" = true := by
  have hc : (⟨"a1", ⟨4, []⟩, "auto", ChainPhase.created⟩ : Chain) ∈
      (sentinel_step (fun _ _ => ⟨"memory_corruption", 1, "r"⟩) true true (some ⟨4, []⟩)
        0 "a1" (initState (fun _ => ⟨false, none, AgentStatus.healthy⟩))).chains := by
    decide
  have hreach : Reach (fun _ _ => (⟨"memory_corruption", 1, "r"⟩ : Diagnosis))
      (fun _ => ["restart_agent"])
      (chain_enter ⟨"a1", ⟨4, []⟩, "auto", ChainPhase.created⟩
        (sentinel_step (fun _ _ => ⟨"memory_corruption", 1, "r"⟩) true true (some ⟨4, []⟩)
          0 "a1" (initState (fun _ => ⟨false, none, AgentStatus.healthy⟩)))) :=
    Reach.step
      (Reach.step (Reach.init _)
        (Step.sentinel true true (some ⟨4, []⟩) 0 "a1" _))
      (Step.enter _ _ hc rfl)
  exact (C2_single_chain_and_membership _ _ _ hreach).2.1
    ⟨"a1", ⟨4, []⟩, "auto", ChainPhase.running⟩ (by decide) rfl

/-- C3: in every reachable orchestrator state, an agent id appears in at most
one of the pending-approval and rejected-approval maps, and membership in
either implies the agent is in the quarantine set. -/
theorem C3_approval_maps_invariant (diagnose : String → InfectionReport → Diagnosis)
    (policy : String → List String) (s : OrchState) (h : Reach diagnose policy s)
    (id : String) :
    ¬(id ∈ keys s.pending ∧ id ∈ keys s.rejected) ∧
    ((id ∈ keys s.pending ∨ id ∈ keys s.rejected) → s.quarantineSet id = true) := by
  have hi := inv_reach h
  constructor
  · rintro ⟨hp, hr⟩
    exact hi.pending_not_rejected id hp hr
  · rintro (hp | hr)
    · exact hi.pending_quar id hp
    · exact hi.rejected_quar id hr

/-- C3 witness: a severe detection from a fresh orchestrator puts a1 into the
pending map, and the invariant yields that a1 is quarantined. -/
theorem C3_witness :
    ("a1" ∈ keys (sentinel_step (fun _ _ => ⟨"memory_corruption", 1, "r"⟩) true true
      (some ⟨8, []⟩) 0 "a1"
      (initState (fun _ => ⟨false, none, AgentStatus.healthy⟩))).pending) ∧
    (sentinel_step (fun _ _ => ⟨"memory_corruption", 1, "r"⟩) true true
      (some ⟨8, []⟩) 0 "a1"
      (initState (fun _ => ⟨false, none, AgentStatus.healthy⟩))).quarantineSet "a1"
      = true := by
  have hreach : Reach (fun _ _ => (⟨"memory_corruption", 1, "r"⟩ : Diagnosis))
      (fun _ => ["restart_agent"])
      (sentinel_step (fun _ _ => ⟨"memory_corruption", 1, "r"⟩) true true
        (some ⟨8, []⟩) 0 "a1"
        (initState (fun _ => ⟨false, none, AgentStatus.healthy⟩))) :=
    Reach.step (Reach.init _) (Step.sentinel true true (some ⟨8, []⟩) 0 "a1" _)
  have hmem : "a1" ∈ keys (sentinel_step (fun _ _ => ⟨"memory_corruption", 1, "r"⟩)
      true true (some ⟨8, []⟩) 0 "a1"
      (initState (fun _ => ⟨false, none, AgentStatus.healthy⟩))).pending := by
    decide
  exact ⟨hmem, (C3_approval_maps_invariant _ _ _ hreach "a1").2 (Or.inl hmem)⟩
